import Mathlib

/-!
Verification development for the hexago project-scaffolding CLI.

Part 1 embeds the template resolution engine
(`internal/generator/template_loader.go`): a `TemplateLoader` resolving
template names against four priority-ordered sources (binary-local,
project-local, user-global, embedded), with parse caching, rendering,
export/reset of overrides and a standalone syntax check.

Part 2 embeds the hexagonal-architecture validator
(`internal/generator/validator.go`): a fixed sequence of five checks
accumulating successes / warnings / errors over a project tree.

Modelling conventions (shallow embedding):
* The filesystem is an association list from path to file content;
  `os.Stat` success is key membership, `os.ReadFile` is lookup,
  `os.WriteFile` replaces the entry, `os.Remove` deletes it.  Directory
  creation (`os.MkdirAll`) always succeeds and is implicit.
* `filepath.Join` is modelled as interposing `"/"`; names are plain
  slash-separated relative identifiers, so no path cleaning is needed.
* Go's `text/template` is abstracted by two environment parameters:
  `parses content` says whether `template.Parse` succeeds on `content`
  (with the fixed custom function map), and `exec content data` is the
  output of executing the parsed form of `content` against `data`
  (`none` modelling an execution error).  A parsed template is
  identified with the content it was parsed from, since parsing is a
  deterministic function of the content and the fixed function map.
-/

namespace HexTpl

/-- A filesystem: association list from path to file content. -/
abbrev FS := List (String × String)

/-- `os.ReadFile`: look up the content stored at a path. -/
def fsLookup : FS → String → Option String
  | [], _ => none
  | (q, c) :: rest, p => if q == p then some c else fsLookup rest p

/-- `fileutil.FileExists` / `os.Stat` succeeding: the path is present. -/
def fsExists (fs : FS) (p : String) : Bool := (fsLookup fs p).isSome

/-- `os.WriteFile`: store content at a path, replacing any old entry. -/
def fsWrite (fs : FS) (p c : String) : FS :=
  (p, c) :: fs.filter (fun q => q.1 != p)

/-- `os.Remove`: delete the entry at a path. -/
def fsRemove (fs : FS) (p : String) : FS := fs.filter (fun q => q.1 != p)

/-- `filepath.Join` on two components (names are plain relative paths,
so no cleaning is involved). -/
def pjoin (a b : String) : String := a ++ "/" ++ b

/-- The world the loader runs in: the filesystem, the directory of the
running binary (`fileutil.BinaryDir()`), the user's home directory
(`fileutil.HomeDir()`), the read-only embedded bundle (keyed by full
path `templates/<name>`, as in the `embed.FS`), and the abstracted
template engine (`parses` = `template.Parse` succeeds, `exec` =
`Template.Execute`). -/
structure Env where
  fs : FS
  binDir : String
  homeDir : String
  embedded : FS
  parses : String → Bool
  exec : String → String → Option String

/-- The error taxonomy of the loader, one constructor per distinct
`fmt.Errorf` site in `template_loader.go`. -/
inductive Err where
  /-- `"template not found: %s"` (from `Load` / `Which` / `loadRawTemplate`). -/
  | notFound (name : String)
  /-- `"failed to parse template %s from %s"` (from `parseTemplate`). -/
  | parseFailed (name source : String)
  /-- `"failed to execute template %s"` (from `Render`). -/
  | execFailed (name : String)
  /-- `"failed to read template"` (from `Validate`). -/
  | readFailed (path : String)
  /-- `"template syntax error"` (from `Validate`). -/
  | syntaxFailed (path : String)
  /-- `"no custom override found at %s"` (from `Reset`). -/
  | noOverride (path : String)
deriving DecidableEq

/-- The error message carried by each `Err`, following the
`fmt.Errorf` format strings of the source. -/
def Err.message : Err → String
  | .notFound name => "template not found: " ++ name
  | .parseFailed name source => "failed to parse template " ++ name ++ " from " ++ source
  | .execFailed name => "failed to execute template " ++ name
  | .readFailed _ => "failed to read template"
  | .syntaxFailed _ => "template syntax error"
  | .noOverride path => "no custom override found at " ++ path

/-- `TemplateSource`: a source of templates (name, base path, priority
rank, existence predicate, content accessor), as in the Go struct. -/
structure TemplateSource where
  Name : String
  Path : String
  Priority : Nat
  has : String → Bool
  read : String → Option String

/-- The source chain built by `NewTemplateLoader`, in priority order:
binary-local, project-local, user-global, embedded. -/
def mkSources (e : Env) : List TemplateSource :=
  [ { Name := "binary-local", Path := pjoin e.binDir "templates", Priority := 1,
      has := fun p => fsExists e.fs p, read := fun p => fsLookup e.fs p },
    { Name := "project-local", Path := ".hexago/templates", Priority := 2,
      has := fun p => fsExists e.fs p, read := fun p => fsLookup e.fs p },
    { Name := "user-global", Path := pjoin e.homeDir ".hexago/templates", Priority := 3,
      has := fun p => fsExists e.fs p, read := fun p => fsLookup e.fs p },
    { Name := "embedded", Path := "", Priority := 4,
      has := fun n => fsExists e.embedded (pjoin "templates" n),
      read := fun n => fsLookup e.embedded (pjoin "templates" n) } ]

/-- `TemplateLoader`: the parse cache, keyed by template name only (a
cached parse is identified with the content it was parsed from). -/
structure TemplateLoader where
  cache : List (String × String)
deriving DecidableEq

/-- Lookup in the loader's parse cache. -/
def cacheLookup (l : TemplateLoader) (name : String) : Option String :=
  fsLookup l.cache name

/-- `parseTemplate`: parse content with the custom function map; on
success the parsed template is cached under `name`. -/
def parseTemplate (e : Env) (l : TemplateLoader) (name content source : String) :
    Except Err String × TemplateLoader :=
  if e.parses content then
    (.ok content, ⟨(name, content) :: l.cache⟩)
  else
    (.error (.parseFailed name source), l)

/-- The source-iteration loop of `Load`: try each source in order; an
existing entry whose read succeeds is parsed (read errors fall through
to the next source, as in the Go loop). -/
def loadLoop (e : Env) (l : TemplateLoader) (name : String) :
    List TemplateSource → Except Err String × TemplateLoader
  | [] => (.error (.notFound name), l)
  | s :: rest =>
    if s.Name == "embedded" then
      if s.has name then
        match s.read name with
        | some content => parseTemplate e l name content s.Name
        | none => loadLoop e l name rest
      else loadLoop e l name rest
    else
      let path := pjoin s.Path name
      if s.has path then
        match s.read path with
        | some content => parseTemplate e l name content s.Name
        | none => loadLoop e l name rest
      else loadLoop e l name rest

/-- `Load`: check the cache first, then try each source in priority
order. -/
def Load (e : Env) (l : TemplateLoader) (name : String) :
    Except Err String × TemplateLoader :=
  match cacheLookup l name with
  | some tmpl => (.ok tmpl, l)
  | none => loadLoop e l name (mkSources e)

/-- `Render`: load (and hence possibly cache) the template, then
execute it against the data context. -/
def Render (e : Env) (l : TemplateLoader) (name data : String) :
    Except Err String × TemplateLoader :=
  match Load e l name with
  | (.error er, l1) => (.error er, l1)
  | (.ok tmpl, l1) =>
    match e.exec tmpl data with
    | some out => (.ok out, l1)
    | none => (.error (.execFailed name), l1)

/-- The source-iteration loop of `Exists`. -/
def existsLoop (name : String) : List TemplateSource → Bool
  | [] => false
  | s :: rest =>
    if s.Name == "embedded" then
      if s.has name then true else existsLoop name rest
    else
      if s.has (pjoin s.Path name) then true else existsLoop name rest

/-- `Exists`: whether any source provides the name (named `ExistsTpl`
here because `Exists` collides with the existential quantifier). -/
def ExistsTpl (e : Env) (l : TemplateLoader) (name : String) :
    Bool × TemplateLoader :=
  (existsLoop name (mkSources e), l)

/-- The source-iteration loop of `Which`, producing the winning
source's label. -/
def whichLoop (name : String) : List TemplateSource → Except Err String
  | [] => .error (.notFound name)
  | s :: rest =>
    if s.Name == "embedded" then
      if s.has name then .ok (s.Name ++ " (embedded)") else whichLoop name rest
    else
      let path := pjoin s.Path name
      if s.has path then .ok (s.Name ++ " (" ++ path ++ ")") else whichLoop name rest

/-- `Which`: the label (with concrete path, or the fixed embedded
marker) of the source that will be used for a name. -/
def Which (e : Env) (l : TemplateLoader) (name : String) :
    Except Err String × TemplateLoader :=
  (whichLoop name (mkSources e), l)

/-- The source-iteration loop of `loadRawTemplate`: first existing
source wins and its read result is returned directly. -/
def rawLoop (name : String) : List TemplateSource → Except Err String
  | [] => .error (.notFound name)
  | s :: rest =>
    if s.Name == "embedded" then
      if s.has name then
        match s.read name with
        | some c => .ok c
        | none => .error (.readFailed name)
      else rawLoop name rest
    else
      let path := pjoin s.Path name
      if s.has path then
        match s.read path with
        | some c => .ok c
        | none => .error (.readFailed path)
      else rawLoop name rest

/-- `loadRawTemplate`: load template content without parsing (and
without consulting the cache). -/
def loadRawTemplate (e : Env) (l : TemplateLoader) (name : String) :
    Except Err String × TemplateLoader :=
  (rawLoop name (mkSources e), l)

/-- Destination of an override: `~/.hexago/templates/<name>` when
global, `.hexago/templates/<name>` when project-local (as computed in
both `Export` and `Reset`). -/
def destPath (e : Env) (global : Bool) (name : String) : String :=
  if global then pjoin (pjoin e.homeDir ".hexago/templates") name
  else pjoin ".hexago/templates" name

/-- `Export`: copy the raw winning content for a name to the writable
override location of the chosen tier (parent-directory creation and
the write itself always succeed in the model). -/
def Export (e : Env) (l : TemplateLoader) (name : String) (global : Bool) :
    Except Err Env × TemplateLoader :=
  match (loadRawTemplate e l name).1 with
  | .error er => (.error er, l)
  | .ok content =>
    (.ok { e with fs := fsWrite e.fs (destPath e global name) content }, l)

/-- `Validate`: read a file at a concrete path and parse it with the
same function map, reporting a syntax error on parse failure. -/
def Validate (e : Env) (l : TemplateLoader) (path : String) :
    Except Err Unit × TemplateLoader :=
  match fsLookup e.fs path with
  | none => (.error (.readFailed path), l)
  | some content =>
    if e.parses content then (.ok (), l) else (.error (.syntaxFailed path), l)

/-- `Reset`: remove the override file of a tier, failing with a
descriptive error when no override exists there. -/
def Reset (e : Env) (l : TemplateLoader) (name : String) (global : Bool) :
    Except Err Env × TemplateLoader :=
  let path := destPath e global name
  if fsExists e.fs path then
    (.ok { e with fs := fsRemove e.fs path }, l)
  else
    (.error (.noOverride path), l)

/-! Index-language accessors used to state the resolution-priority
property: the existence predicate, read accessor, source name and
label of the `i`-th source (0-based; priority rank is `i + 1`). -/

/-- Existence predicate of the `i`-th source applied to a name. -/
def srcHasAt (e : Env) (i : Nat) (name : String) : Bool :=
  match i with
  | 0 => fsExists e.fs (pjoin (pjoin e.binDir "templates") name)
  | 1 => fsExists e.fs (pjoin ".hexago/templates" name)
  | 2 => fsExists e.fs (pjoin (pjoin e.homeDir ".hexago/templates") name)
  | 3 => fsExists e.embedded (pjoin "templates" name)
  | _ => false

/-- Content accessor of the `i`-th source applied to a name. -/
def srcReadAt (e : Env) (i : Nat) (name : String) : Option String :=
  match i with
  | 0 => fsLookup e.fs (pjoin (pjoin e.binDir "templates") name)
  | 1 => fsLookup e.fs (pjoin ".hexago/templates" name)
  | 2 => fsLookup e.fs (pjoin (pjoin e.homeDir ".hexago/templates") name)
  | 3 => fsLookup e.embedded (pjoin "templates" name)
  | _ => none

/-- Name of the `i`-th source. -/
def srcNameAt (i : Nat) : String :=
  match i with
  | 0 => "binary-local"
  | 1 => "project-local"
  | 2 => "user-global"
  | 3 => "embedded"
  | _ => ""

/-- The label `Which` reports for the `i`-th source. -/
def srcLabelAt (e : Env) (i : Nat) (name : String) : String :=
  match i with
  | 0 => "binary-local (" ++ pjoin (pjoin e.binDir "templates") name ++ ")"
  | 1 => "project-local (" ++ pjoin ".hexago/templates" name ++ ")"
  | 2 => "user-global (" ++ pjoin (pjoin e.homeDir ".hexago/templates") name ++ ")"
  | 3 => "embedded (embedded)"
  | _ => ""

/-- First-match resolution: the priority rank and content of the first
source whose existence predicate holds for the name. -/
def resolveLoop (name : String) : List TemplateSource → Option (Nat × String)
  | [] => none
  | s :: rest =>
    let key := if s.Name == "embedded" then name else pjoin s.Path name
    if s.has key then (s.read key).map (fun c => (s.Priority, c))
    else resolveLoop name rest

/-- `resolve`: which (priority rank, content) wins for a name. -/
def resolve (e : Env) (name : String) : Option (Nat × String) :=
  resolveLoop name (mkSources e)

/-- Priority rank of the tier `Export`/`Reset` write to: 3 for the
user-global tier, 2 for the project-local tier. -/
def tierPriority (global : Bool) : Nat := if global then 3 else 2


/-- Base-joined filesystem path of the `j`-th filesystem-backed source
(0 = binary-local, 1 = project-local, 2 = user-global). -/
def srcPathAt (e : Env) (j : Nat) (name : String) : String :=
  match j with
  | 0 => pjoin (pjoin e.binDir "templates") name
  | 1 => pjoin ".hexago/templates" name
  | 2 => pjoin (pjoin e.homeDir ".hexago/templates") name
  | _ => ""

/-- Environment refuting C6 as stated: the name `t` is provided by the
binary-local source, which outranks the user-global export tier. -/
def c6Env : Env :=
  { fs := [("bin/templates/t", "A")], binDir := "bin", homeDir := "home",
    embedded := [], parses := fun _ => true, exec := fun _ _ => none }

/-- The environment after `Export c6Env "t" user-global`. -/
def c6EnvAfter : Env :=
  { c6Env with fs := [("home/.hexago/templates/t", "A"), ("bin/templates/t", "A")] }

/-- Environment used by the loader witnesses: the name `t` is provided
only by the embedded bundle, `u` additionally by the project-local
override directory. -/
def wEnv : Env :=
  { fs := [(".hexago/templates/u", "P")], binDir := "bin", homeDir := "home",
    embedded := [("templates/t", "E"), ("templates/u", "F")],
    parses := fun _ => true, exec := fun c d => some (c ++ d) }

end HexTpl

namespace HexVal

/-- `filepath.Join` on two components, as used by the validator. -/
def pjoinV (a b : String) : String := a ++ "/" ++ b

/-- Is `pat` a contiguous sublist of the character list? (Model of
`strings.Contains`; the empty pattern is contained everywhere.) -/
def isSubChars (pat : List Char) : List Char → Bool
  | [] => pat.isEmpty
  | c :: cs => pat.isPrefixOf (c :: cs) || isSubChars pat cs

/-- `strings.Contains s pat`. -/
def containsSub (s pat : String) : Bool := isSubChars pat.data s.data

/-- `strings.HasPrefix s pre` (char-list model, so that it evaluates
by kernel reduction). -/
def strHasPref (s pre : String) : Bool := pre.data.isPrefixOf s.data

/-- `strings.HasSuffix s suf` (char-list model). -/
def strHasSuffix (s suf : String) : Bool := suf.data.isSuffixOf s.data

/-- Uppercase an ASCII lowercase letter (identity otherwise). -/
def upChar (c : Char) : Char :=
  if 97 ≤ c.toNat && c.toNat ≤ 122 then Char.ofNat (c.toNat - 32) else c

/-- Is the character an ASCII letter? -/
def isLetterCh (c : Char) : Bool :=
  (65 ≤ c.toNat && c.toNat ≤ 90) || (97 ≤ c.toNat && c.toNat ≤ 122)

/-- Helper for `titleCase`: the flag records whether the previous
character was a letter (i.e. we are inside a word). -/
def titleAux : List Char → Bool → List Char
  | [], _ => []
  | c :: cs, prevLetter =>
    (if prevLetter then c else upChar c) :: titleAux cs (isLetterCh c)

/-- `strings.Title`: uppercase the letters that begin words (ASCII
model of the Unicode original, which suffices for the directory names
in play). -/
def titleCase (s : String) : String := String.mk (titleAux s.data false)

/-- The slice of `ProjectConfig` the validator consumes: the module
identifier and the two naming-convention choices. -/
structure ProjectConfig where
  ModuleName : String
  AdapterStyle : String
  CoreLogic : String
deriving DecidableEq

/-- `ProjectConfig.AdapterInboundDir`. -/
def AdapterInboundDir (c : ProjectConfig) : String :=
  if c.AdapterStyle == "driver-driven" then "driver" else "primary"

/-- `ProjectConfig.AdapterOutboundDir`. -/
def AdapterOutboundDir (c : ProjectConfig) : String :=
  if c.AdapterStyle == "driver-driven" then "driven" else "secondary"

/-- `ProjectConfig.CoreLogicDir`. -/
def CoreLogicDir (c : ProjectConfig) : String := c.CoreLogic

/-- A compilation unit in the walked tree: its path, and the result of
`parser.ParseFile(..., parser.ImportsOnly)`: `none` when the
declared-dependency section fails to parse, otherwise the list of
declared import paths (with their surrounding quotes already
trimmed). -/
structure TreeFile where
  path : String
  parse : Option (List String)
deriving DecidableEq

/-- A project tree: the set of existing directories and the walked
files (in walk order). -/
structure Tree where
  dirs : List String
  files : List TreeFile
deriving DecidableEq

/-- `ValidationResult`: ordered lists of successes, warnings and
errors. -/
structure ValidationResult where
  Successes : List String
  Warnings : List String
  Errors : List String
deriving DecidableEq

/-- `ValidationResult.HasErrors`. -/
def HasErrors (r : ValidationResult) : Bool := !r.Errors.isEmpty

/-- `importViolation`: an import that violates the architecture
rules. -/
structure importViolation where
  file : String
  importPath : String
deriving DecidableEq

/-- The violations the walk callback of `checkImports` collects from a
single file: directories, non-`.go` files and `_test.go` files are
skipped, files whose import section fails to parse are skipped, and
each remaining declared dependency that is prefixed by the module
identifier and rejected by the layer predicate yields one violation. -/
def fileViolations (cfg : ProjectConfig) (isAllowed : String → Bool)
    (fl : TreeFile) : List importViolation :=
  if !strHasSuffix fl.path ".go" || strHasSuffix fl.path "_test.go" then []
  else
    match fl.parse with
    | none => []
    | some imps =>
      (imps.filter (fun ip => strHasPref ip cfg.ModuleName && !isAllowed ip)).map
        (fun ip => ⟨fl.path, ip⟩)

/-- `checkImports`: walk all files under a directory and collect
the import violations; walking a nonexistent directory fails with
the lstat error `filepath.Walk` reports. -/
def checkImports (cfg : ProjectConfig) (t : Tree) (dir : String)
    (isAllowed : String → Bool) : Except String (List importViolation) :=
  if t.dirs.contains dir then
    .ok ((t.files.filter (fun fl => strHasPref fl.path (dir ++ "/"))).flatMap
      (fileViolations cfg isAllowed))
  else
    .error ("lstat " ++ dir ++ ": no such file or directory")

/-- The allow-predicate of the domain layer (`validateCoreDependencies`):
no `/adapters/` and no `/infrastructure/` segment. -/
def domainAllowed (importPath : String) : Bool :=
  !containsSub importPath "/adapters/" && !containsSub importPath "/infrastructure/"

/-- The allow-predicate of the business-logic layer
(`validateServiceDependencies`): module-internal dependencies must not
contain an `/adapters/` segment. -/
def serviceAllowed (cfg : ProjectConfig) (importPath : String) : Bool :=
  if containsSub importPath cfg.ModuleName then
    !containsSub importPath "/adapters/"
  else true

/-- The allow-predicate of the adapter layer
(`validateAdapterDependencies`): it inspects the adapter type of a
cross-adapter import but returns `true` on every branch ("For now,
allow adapter imports").  The source tests
`len(strings.Split(importPath, "/adapters/")) > 1`, which for this
non-empty separator is equivalent to `strings.Contains` holding — the
condition modelled here. -/
def adapterAllowed (importPath : String) : Bool :=
  if containsSub importPath "/adapters/" then
    if containsSub importPath "/adapters/" then true else true
  else true

/-- The required-directory table of `validateProjectStructure`:
path paired with human-readable description. -/
def requiredDirs (cfg : ProjectConfig) : List (String × String) :=
  [ ("internal/core/domain", "Domain directory"),
    (pjoinV "internal/core" (CoreLogicDir cfg), "Core logic directory"),
    (pjoinV "internal/adapters" (AdapterInboundDir cfg), "Inbound adapters directory"),
    (pjoinV "internal/adapters" (AdapterOutboundDir cfg), "Outbound adapters directory"),
    ("internal/config", "Config directory") ]

/-- `validateProjectStructure`: one success per present required
directory, one warning (never an error) per absent one. -/
def validateProjectStructure (cfg : ProjectConfig) (t : Tree)
    (r : ValidationResult) : ValidationResult :=
  (requiredDirs cfg).foldl
    (fun acc d =>
      if t.dirs.contains d.1 then
        { acc with Successes := acc.Successes ++ [d.2 ++ " exists"] }
      else
        { acc with Warnings := acc.Warnings ++ [d.2 ++ " not found: " ++ d.1] })
    r

/-- `validateCoreDependencies`: check the domain layer; a failed walk
becomes a warning, an empty violation list a success, and each
violation an error. -/
def validateCoreDependencies (cfg : ProjectConfig) (t : Tree)
    (r : ValidationResult) : ValidationResult :=
  match checkImports cfg t "internal/core/domain" domainAllowed with
  | .error msg =>
    { r with Warnings := r.Warnings ++ ["Could not check domain dependencies: " ++ msg] }
  | .ok violations =>
    if violations.isEmpty then
      { r with Successes := r.Successes ++ ["Core domain has no external dependencies"] }
    else
      { r with Errors := r.Errors ++ (violations.map
          (fun v => "Domain imports external package: " ++ v.importPath ++ " in " ++ v.file)) }

/-- `validateServiceDependencies`: check the business-logic layer
(`internal/core/<CoreLogicDir>`). -/
def validateServiceDependencies (cfg : ProjectConfig) (t : Tree)
    (r : ValidationResult) : ValidationResult :=
  match checkImports cfg t (pjoinV "internal/core" (CoreLogicDir cfg)) (serviceAllowed cfg) with
  | .error msg =>
    { r with Warnings := r.Warnings ++
        ["Could not check " ++ CoreLogicDir cfg ++ " dependencies: " ++ msg] }
  | .ok violations =>
    if violations.isEmpty then
      { r with Successes := r.Successes ++
          [titleCase (CoreLogicDir cfg) ++ " only depend on domain and ports"] }
    else
      { r with Errors := r.Errors ++ (violations.map
          (fun v => titleCase (CoreLogicDir cfg) ++ " imports adapter: " ++
            v.importPath ++ " in " ++ v.file)) }

/-- `validateAdapterDependencies`: check the adapter layer; each
violation would become a warning (not an error). -/
def validateAdapterDependencies (cfg : ProjectConfig) (t : Tree)
    (r : ValidationResult) : ValidationResult :=
  match checkImports cfg t "internal/adapters" adapterAllowed with
  | .error msg =>
    { r with Warnings := r.Warnings ++ ["Could not check adapter dependencies: " ++ msg] }
  | .ok violations =>
    if violations.isEmpty then
      { r with Successes := r.Successes ++ ["Adapters follow dependency rules"] }
    else
      { r with Warnings := r.Warnings ++ (violations.map
          (fun v => "Adapter cross-import: " ++ v.importPath ++ " in " ++ v.file)) }

/-- `validateNamingConventions`: purely informational successes for
each naming-convention directory that exists. -/
def validateNamingConventions (cfg : ProjectConfig) (t : Tree)
    (r : ValidationResult) : ValidationResult :=
  let r1 :=
    if t.dirs.contains (pjoinV "internal/adapters" (AdapterInboundDir cfg)) then
      { r with Successes := r.Successes ++
          ["Using " ++ AdapterInboundDir cfg ++ " for inbound adapters"] }
    else r
  let r2 :=
    if t.dirs.contains (pjoinV "internal/adapters" (AdapterOutboundDir cfg)) then
      { r1 with Successes := r1.Successes ++
          ["Using " ++ AdapterOutboundDir cfg ++ " for outbound adapters"] }
    else r1
  if t.dirs.contains (pjoinV "internal/core" (CoreLogicDir cfg)) then
    { r2 with Successes := r2.Successes ++
        ["Using " ++ CoreLogicDir cfg ++ " for business logic"] }
  else r2

/-- `Validate`: the fixed, non-aborting sequence of the five checks,
starting from an empty result. -/
def Validate (cfg : ProjectConfig) (t : Tree) : ValidationResult :=
  validateNamingConventions cfg t
    (validateAdapterDependencies cfg t
      (validateServiceDependencies cfg t
        (validateCoreDependencies cfg t
          (validateProjectStructure cfg t ⟨[], [], []⟩))))

/-- The default naming convention (`primary`/`secondary` adapters,
`services` business logic) with a given module identifier. -/
def stdCfg (m : String) : ProjectConfig :=
  { ModuleName := m, AdapterStyle := "primary-secondary", CoreLogic := "services" }

/-- Successes and warnings contributed by the structure check. -/
def structureDeltas (cfg : ProjectConfig) (t : Tree) : List String × List String :=
  ((requiredDirs cfg).filterMap
    (fun d => if t.dirs.contains d.1 then some (d.2 ++ " exists") else none),
   (requiredDirs cfg).filterMap
    (fun d => if t.dirs.contains d.1 then none else some (d.2 ++ " not found: " ++ d.1)))

/-- Successes, warnings and errors contributed by the domain check. -/
def coreDeltas (cfg : ProjectConfig) (t : Tree) :
    List String × List String × List String :=
  match checkImports cfg t "internal/core/domain" domainAllowed with
  | .error msg => ([], ["Could not check domain dependencies: " ++ msg], [])
  | .ok vs =>
    if vs.isEmpty then (["Core domain has no external dependencies"], [], [])
    else ([], [], vs.map
      (fun v => "Domain imports external package: " ++ v.importPath ++ " in " ++ v.file))

/-- Successes, warnings and errors contributed by the business-logic
check. -/
def serviceDeltas (cfg : ProjectConfig) (t : Tree) :
    List String × List String × List String :=
  match checkImports cfg t (pjoinV "internal/core" (CoreLogicDir cfg)) (serviceAllowed cfg) with
  | .error msg => ([], ["Could not check " ++ CoreLogicDir cfg ++ " dependencies: " ++ msg], [])
  | .ok vs =>
    if vs.isEmpty then ([titleCase (CoreLogicDir cfg) ++ " only depend on domain and ports"], [], [])
    else ([], [], vs.map
      (fun v => titleCase (CoreLogicDir cfg) ++ " imports adapter: " ++ v.importPath ++ " in " ++ v.file))

/-- Successes and warnings contributed by the adapter check. -/
def adapterDeltas (cfg : ProjectConfig) (t : Tree) : List String × List String :=
  match checkImports cfg t "internal/adapters" adapterAllowed with
  | .error msg => ([], ["Could not check adapter dependencies: " ++ msg])
  | .ok vs =>
    if vs.isEmpty then (["Adapters follow dependency rules"], [])
    else ([], vs.map (fun v => "Adapter cross-import: " ++ v.importPath ++ " in " ++ v.file))

/-- Successes contributed by the naming-convention check. -/
def namingDelta (cfg : ProjectConfig) (t : Tree) : List String :=
  (if t.dirs.contains (pjoinV "internal/adapters" (AdapterInboundDir cfg)) then
    ["Using " ++ AdapterInboundDir cfg ++ " for inbound adapters"] else []) ++
  (if t.dirs.contains (pjoinV "internal/adapters" (AdapterOutboundDir cfg)) then
    ["Using " ++ AdapterOutboundDir cfg ++ " for outbound adapters"] else []) ++
  (if t.dirs.contains (pjoinV "internal/core" (CoreLogicDir cfg)) then
    ["Using " ++ CoreLogicDir cfg ++ " for business logic"] else [])

/-- A project tree whose adapter layer declares a module-internal
cross-adapter dependency. -/
def adapterTree : Tree :=
  { dirs := ["internal/core/domain", "internal/core/services", "internal/adapters/primary",
             "internal/adapters/secondary", "internal/config", "internal/adapters"],
    files := [⟨"internal/adapters/primary/http/h.go",
               some ["m/internal/adapters/secondary/database/repo"]⟩] }

/-- A project tree whose business-logic directory is entirely
absent. -/
def missingSvcTree : Tree :=
  { dirs := ["internal/core/domain", "internal/adapters/primary",
             "internal/adapters/secondary", "internal/config", "internal/adapters"],
    files := [] }

/-- A project tree whose domain layer declares a dependency on the
database adapter. -/
def domainTree : Tree :=
  { dirs := ["internal/core/domain"],
    files := [⟨"internal/core/domain/user.go",
               some ["fmt", "m/internal/adapters/secondary/database"]⟩] }

end HexVal

/-! ## Helper lemmas about the filesystem model -/

namespace HexTpl

theorem beq_false_of_ne {a b : String} (h : ¬ a = b) : (a == b) = false := by
  cases hab : a == b
  · rfl
  · exact absurd (eq_of_beq hab) h

theorem bne_true_of_ne {a b : String} (h : ¬ a = b) : (a != b) = true := by
  simp [bne, beq_false_of_ne h]

theorem fsExists_iff_lookup {fs : FS} {p : String} :
    fsExists fs p = true ↔ ∃ c, fsLookup fs p = some c := by
  simp [fsExists, Option.isSome_iff_exists]

theorem fsExists_false_lookup {fs : FS} {p : String}
    (h : fsExists fs p = false) : fsLookup fs p = none := by
  cases hl : fsLookup fs p with
  | none => rfl
  | some c => simp [fsExists, hl] at h

theorem fsLookup_filter_ne {fs : FS} {p q : String} (h : ¬ p = q) :
    fsLookup (fs.filter (fun e => e.1 != p)) q = fsLookup fs q := by
  induction fs with
  | nil => rfl
  | cons hd tl ih =>
    obtain ⟨k, v⟩ := hd
    by_cases hk : k = p
    · subst hk
      have h1 : (k != k) = false := by simp
      have h2 : (k == q) = false := beq_false_of_ne h
      simp [List.filter_cons, h1, fsLookup, h2, ih]
    · have h1 : (k != p) = true := bne_true_of_ne hk
      simp only [List.filter_cons, h1, if_true]
      simp only [fsLookup]
      split
      · rfl
      · exact ih

theorem fsLookup_filter_self {fs : FS} {p : String} :
    fsLookup (fs.filter (fun e => e.1 != p)) p = none := by
  induction fs with
  | nil => rfl
  | cons hd tl ih =>
    obtain ⟨k, v⟩ := hd
    by_cases hk : k = p
    · have h1 : (k != p) = false := by simp [hk]
      simp [List.filter_cons, h1, ih]
    · have h1 : (k != p) = true := bne_true_of_ne hk
      have h2 : (k == p) = false := beq_false_of_ne hk
      simp [List.filter_cons, h1, fsLookup, h2, ih]

theorem fsLookup_fsWrite {fs : FS} {p c q : String} :
    fsLookup (fsWrite fs p c) q = if p = q then some c else fsLookup fs q := by
  by_cases h : p = q
  · subst h
    simp [fsWrite, fsLookup]
  · have hb : (p == q) = false := beq_false_of_ne h
    simp [fsWrite, fsLookup, hb, fsLookup_filter_ne h, h]

theorem fsLookup_fsRemove {fs : FS} {p q : String} :
    fsLookup (fsRemove fs p) q = if p = q then none else fsLookup fs q := by
  by_cases h : p = q
  · subst h
    simp [fsRemove, fsLookup_filter_self]
  · simp [fsRemove, fsLookup_filter_ne h, h]

theorem fsWrite_fsWrite {fs : FS} {p c : String} :
    fsWrite (fsWrite fs p c) p c = fsWrite fs p c := by
  simp [fsWrite, List.filter_filter]

theorem fsRemove_fsWrite_of_absent {fs : FS} {p c : String}
    (h : fsLookup fs p = none) : fsRemove (fsWrite fs p c) p = fs := by
  have hall : fs.filter (fun e => e.1 != p) = fs := by
    induction fs with
    | nil => rfl
    | cons hd tl ih =>
      cases hd with
      | mk k v =>
        simp only [fsLookup] at h
        by_cases hk : k = p
        · simp [hk] at h
        · have h1 : (k != p) = true := by simp [hk]
          have h2 : (k == p) = false := by simp [hk]
          simp [h2] at h
          simp [List.filter_cons, h1, ih h]
  simp [fsRemove, fsWrite, List.filter_cons, List.filter_filter, hall]

end HexTpl
/-! ## C1: resolution priority -/

section C1
open HexTpl

/-- C1: for every template name, resolving it (`Load` when the name is
not cached, `loadRawTemplate`, `Which`) iterates the four sources in
ascending priority order (binary-local, project-local, user-global,
embedded) and returns the content (resp. label) of the first source
whose existence predicate is true for the name; if no source's
predicate is true, a not-found error results.  In particular, for a
name present in two or more sources the result is that of the source
with the numerically lowest priority rank. -/
theorem C1_resolution_priority :
    (∀ (e : Env) (l : TemplateLoader) (name : String) (i : Nat),
      i < 4 →
      srcHasAt e i name = true →
      (∀ j, j < i → srcHasAt e j name = false) →
      ∃ c, srcReadAt e i name = some c ∧
        (loadRawTemplate e l name).1 = .ok c ∧
        (Which e l name).1 = .ok (srcLabelAt e i name) ∧
        (cacheLookup l name = none →
          Load e l name =
            (if e.parses c then (.ok c, ⟨(name, c) :: l.cache⟩)
             else (.error (.parseFailed name (srcNameAt i)), l)))) ∧
    (∀ (e : Env) (l : TemplateLoader) (name : String),
      (∀ j, j < 4 → srcHasAt e j name = false) →
      (loadRawTemplate e l name).1 = .error (.notFound name) ∧
      (Which e l name).1 = .error (.notFound name) ∧
      (cacheLookup l name = none →
        Load e l name = (.error (.notFound name), l))) := by
  constructor
  · intro e l name i hi hhas hlt
    interval_cases i
    · obtain ⟨c, hc⟩ := fsExists_iff_lookup.mp hhas
      refine ⟨c, hc, ?_, ?_, fun hcache => ?_⟩
      · simp [loadRawTemplate, rawLoop, mkSources, fsExists, hc]
      · simp [Which, whichLoop, mkSources, fsExists, hc, srcLabelAt]
      · simp [Load, hcache, loadLoop, mkSources, fsExists, hc, parseTemplate, srcNameAt]
    · have h0 : fsLookup e.fs (pjoin (pjoin e.binDir "templates") name) = none :=
        fsExists_false_lookup (hlt 0 (by omega))
      obtain ⟨c, hc⟩ := fsExists_iff_lookup.mp hhas
      refine ⟨c, hc, ?_, ?_, fun hcache => ?_⟩
      · simp [loadRawTemplate, rawLoop, mkSources, fsExists, h0, hc]
      · simp [Which, whichLoop, mkSources, fsExists, h0, hc, srcLabelAt]
      · simp [Load, hcache, loadLoop, mkSources, fsExists, h0, hc, parseTemplate, srcNameAt]
    · have h0 : fsLookup e.fs (pjoin (pjoin e.binDir "templates") name) = none :=
        fsExists_false_lookup (hlt 0 (by omega))
      have h1 : fsLookup e.fs (pjoin ".hexago/templates" name) = none :=
        fsExists_false_lookup (hlt 1 (by omega))
      obtain ⟨c, hc⟩ := fsExists_iff_lookup.mp hhas
      refine ⟨c, hc, ?_, ?_, fun hcache => ?_⟩
      · simp [loadRawTemplate, rawLoop, mkSources, fsExists, h0, h1, hc]
      · simp [Which, whichLoop, mkSources, fsExists, h0, h1, hc, srcLabelAt]
      · simp [Load, hcache, loadLoop, mkSources, fsExists, h0, h1, hc, parseTemplate, srcNameAt]
    · have h0 : fsLookup e.fs (pjoin (pjoin e.binDir "templates") name) = none :=
        fsExists_false_lookup (hlt 0 (by omega))
      have h1 : fsLookup e.fs (pjoin ".hexago/templates" name) = none :=
        fsExists_false_lookup (hlt 1 (by omega))
      have h2 : fsLookup e.fs (pjoin (pjoin e.homeDir ".hexago/templates") name) = none :=
        fsExists_false_lookup (hlt 2 (by omega))
      obtain ⟨c, hc⟩ := fsExists_iff_lookup.mp hhas
      refine ⟨c, hc, ?_, ?_, fun hcache => ?_⟩
      · simp [loadRawTemplate, rawLoop, mkSources, fsExists, h0, h1, h2, hc]
      · simp [Which, whichLoop, mkSources, fsExists, h0, h1, h2, hc, srcLabelAt]
      · simp [Load, hcache, loadLoop, mkSources, fsExists, h0, h1, h2, hc, parseTemplate,
          srcNameAt]
  · intro e l name hnone
    have h0 : fsLookup e.fs (pjoin (pjoin e.binDir "templates") name) = none :=
      fsExists_false_lookup (hnone 0 (by omega))
    have h1 : fsLookup e.fs (pjoin ".hexago/templates" name) = none :=
      fsExists_false_lookup (hnone 1 (by omega))
    have h2 : fsLookup e.fs (pjoin (pjoin e.homeDir ".hexago/templates") name) = none :=
      fsExists_false_lookup (hnone 2 (by omega))
    have h3 : fsLookup e.embedded (pjoin "templates" name) = none :=
      fsExists_false_lookup (hnone 3 (by omega))
    refine ⟨?_, ?_, fun hcache => ?_⟩
    · simp [loadRawTemplate, rawLoop, mkSources, fsExists, h0, h1, h2, h3]
    · simp [Which, whichLoop, mkSources, fsExists, h0, h1, h2, h3]
    · simp [Load, hcache, loadLoop, mkSources, fsExists, h0, h1, h2, h3]


/-- Witness for C1: the embedded source (rank 4) wins for `t`, and the
project-local source (rank 2) wins for `u`. -/
theorem C1_resolution_priority_witness :
    (Which wEnv ⟨[]⟩ "t").1 = .ok "embedded (embedded)" ∧
    (Which wEnv ⟨[]⟩ "u").1 = .ok "project-local (.hexago/templates/u)" := by
  constructor
  · obtain ⟨c, _, _, hw, _⟩ :=
      C1_resolution_priority.1 wEnv ⟨[]⟩ "t" 3 (by omega) (by decide)
        (by intro j hj; interval_cases j
            all_goals decide)
    exact hw
  · obtain ⟨c, hc, _, hw, _⟩ :=
      C1_resolution_priority.1 wEnv ⟨[]⟩ "u" 1 (by omega) (by decide)
        (by intro j hj; interval_cases j
            all_goals decide)
    exact hw

end C1
/-! ## C10: the cache is mutated only by a successful parse -/

section C10
open HexTpl

/-- The source loop of `Load` either fails and leaves the loader
untouched, or succeeds having cached exactly the parsed content. -/
theorem loadLoop_spec (e : Env) (l : TemplateLoader) (name : String)
    (srcs : List TemplateSource) :
    (∃ er, loadLoop e l name srcs = (.error er, l)) ∨
    (∃ c, loadLoop e l name srcs = (.ok c, ⟨(name, c) :: l.cache⟩)) := by
  induction srcs with
  | nil => exact .inl ⟨.notFound name, rfl⟩
  | cons s rest ih =>
    simp only [loadLoop]
    split
    · split
      · split
        · simp only [parseTemplate]
          split
          · exact .inr ⟨_, rfl⟩
          · exact .inl ⟨_, rfl⟩
        · exact ih
      · exact ih
    · split
      · split
        · simp only [parseTemplate]
          split
          · exact .inr ⟨_, rfl⟩
          · exact .inl ⟨_, rfl⟩
        · exact ih
      · exact ih

/-- C10: the parse cache gains an entry only when `Load` successfully
parses resolved content — a `Load` ending in not-found or a parse
error leaves the cache unchanged, a cache hit leaves it unchanged, a
cache miss that succeeds adds exactly the parsed entry — and `Which`,
`Exists`, `Export`, `Reset` and `Validate` neither write to the cache
(the loader they return is the one they were given) nor read from it
(their results are the same for every cache state). -/
theorem C10_cache_discipline :
    (∀ (e : Env) (l : TemplateLoader) (name : String) (er : Err),
      (Load e l name).1 = .error er → (Load e l name).2 = l) ∧
    (∀ (e : Env) (l : TemplateLoader) (name tmpl : String),
      cacheLookup l name = some tmpl → Load e l name = (.ok tmpl, l)) ∧
    (∀ (e : Env) (l : TemplateLoader) (name tmpl : String),
      cacheLookup l name = none → (Load e l name).1 = .ok tmpl →
      ((Load e l name).2).cache = (name, tmpl) :: l.cache) ∧
    (∀ (e : Env) (l l2 : TemplateLoader) (name : String),
      (Which e l name).2 = l ∧ (Which e l name).1 = (Which e l2 name).1) ∧
    (∀ (e : Env) (l l2 : TemplateLoader) (name : String),
      (ExistsTpl e l name).2 = l ∧ (ExistsTpl e l name).1 = (ExistsTpl e l2 name).1) ∧
    (∀ (e : Env) (l l2 : TemplateLoader) (name : String) (g : Bool),
      (Export e l name g).2 = l ∧ (Export e l name g).1 = (Export e l2 name g).1) ∧
    (∀ (e : Env) (l l2 : TemplateLoader) (name : String) (g : Bool),
      (Reset e l name g).2 = l ∧ (Reset e l name g).1 = (Reset e l2 name g).1) ∧
    (∀ (e : Env) (l l2 : TemplateLoader) (path : String),
      (Validate e l path).2 = l ∧ (Validate e l path).1 = (Validate e l2 path).1) := by
  refine ⟨?_, ?_, ?_, ?_, ?_, ?_, ?_, ?_⟩
  · intro e l name er h
    unfold Load at h ⊢
    cases hc : cacheLookup l name with
    | some tmpl => simp [hc] at h
    | none =>
      simp only [hc]
      rcases loadLoop_spec e l name (mkSources e) with ⟨er2, heq⟩ | ⟨c, heq⟩
      · simp [heq]
      · simp only [hc, heq] at h
        exact absurd h (by simp)
  · intro e l name tmpl hc
    simp [Load, hc]
  · intro e l name tmpl hc h
    unfold Load at h ⊢
    simp only [hc] at h ⊢
    rcases loadLoop_spec e l name (mkSources e) with ⟨er2, heq⟩ | ⟨c, heq⟩
    · simp [heq] at h
    · simp only [heq] at h ⊢
      cases h
      rfl
  · exact fun e l l2 name => ⟨rfl, rfl⟩
  · exact fun e l l2 name => ⟨rfl, rfl⟩
  · intro e l l2 name g
    have key : ∀ l3 : TemplateLoader, Export e l3 name g =
        ((match rawLoop name (mkSources e) with
          | .error er => (.error er : Except Err Env)
          | .ok content => .ok { e with fs := fsWrite e.fs (destPath e g name) content }), l3) := by
      intro l3
      unfold Export
      cases h : rawLoop name (mkSources e) <;> simp [loadRawTemplate, h]
    rw [key l, key l2]
    exact ⟨rfl, rfl⟩
  · intro e l l2 name g
    have key : ∀ l3 : TemplateLoader, Reset e l3 name g =
        ((if fsExists e.fs (destPath e g name) then
            (.ok { e with fs := fsRemove e.fs (destPath e g name) } : Except Err Env)
          else .error (.noOverride (destPath e g name))), l3) := by
      intro l3
      simp only [Reset]
      by_cases h : fsExists e.fs (destPath e g name) = true
      · simp [h]
      · simp only [Bool.not_eq_true] at h
        simp [h]
    rw [key l, key l2]
    exact ⟨rfl, rfl⟩
  · intro e l l2 path
    have key : ∀ l3 : TemplateLoader, Validate e l3 path =
        ((match fsLookup e.fs path with
          | none => (.error (.readFailed path) : Except Err Unit)
          | some content =>
            if e.parses content then .ok () else .error (.syntaxFailed path)), l3) := by
      intro l3
      unfold Validate
      cases h : fsLookup e.fs path with
      | none => rfl
      | some content =>
        by_cases hp : e.parses content = true
        · simp [hp]
        · simp only [Bool.not_eq_true] at hp
          simp [hp]
    rw [key l, key l2]
    exact ⟨rfl, rfl⟩

/-- Witness for C10: on a concrete environment, a failed `Load` leaves
the cache empty and a successful one caches exactly the parsed
template. -/
theorem C10_cache_discipline_witness :
    (Load wEnv ⟨[]⟩ "missing").2 = (⟨[]⟩ : TemplateLoader) ∧
    ((Load wEnv ⟨[]⟩ "t").2).cache = [("t", "E")] := by
  constructor
  · exact C10_cache_discipline.1 wEnv ⟨[]⟩ "missing" (.notFound "missing") (by rfl)
  · exact C10_cache_discipline.2.2.1 wEnv ⟨[]⟩ "t" "E" (by rfl) (by rfl)

end C10
/-! ## C8: the Reset error condition -/

section C8
open HexTpl

/-- The two error messages in play for C8 are distinct whatever the
name and path, since one starts with `n` and the other with `t`. -/
theorem noOverride_message_ne_notFound_message (p n : String) :
    ("no custom override found at " ++ p) ≠ ("template not found: " ++ n) := by
  intro h
  have h2 : (some 'n' : Option Char) = some 't' :=
    congrArg (fun s => s.data.head?) h
  simp at h2

/-- C8: `Reset(name, tier)` returns a descriptive error exactly when
no override file exists at the writable location
`<tier-base>/.hexago/templates/<name>` for that tier, this error is
distinct (as a value and as a message) from the not-found error
`Load`/`Which`/`loadRawTemplate` produce when a name resolves in no
source, and when the override exists `Reset` removes it and returns no
error. -/
theorem C8_reset_error :
    ∀ (e : Env) (l : TemplateLoader) (name : String) (g : Bool),
      (fsExists e.fs (destPath e g name) = false →
        (Reset e l name g).1 = .error (.noOverride (destPath e g name))) ∧
      (fsExists e.fs (destPath e g name) = true →
        (Reset e l name g).1 = .ok { e with fs := fsRemove e.fs (destPath e g name) }) ∧
      (∀ (p nm : String), Err.noOverride p ≠ Err.notFound nm) ∧
      (∀ (p nm : String), (Err.noOverride p).message ≠ (Err.notFound nm).message) := by
  intro e l name g
  refine ⟨?_, ?_, ?_, ?_⟩
  · intro h
    simp [Reset, h]
  · intro h
    simp [Reset, h]
  · intro p nm h
    exact Err.noConfusion h
  · intro p nm
    exact noOverride_message_ne_notFound_message p nm

/-- Witness for C8: in the concrete environment, resetting `t` (whose
only copy is embedded) fails with the no-override error while
resetting the project-local override of `u` succeeds. -/
theorem C8_reset_error_witness :
    (Reset wEnv ⟨[]⟩ "t" false).1 = .error (.noOverride ".hexago/templates/t") ∧
    (Reset wEnv ⟨[]⟩ "u" false).1 =
      .ok { wEnv with fs := [] } := by
  constructor
  · exact (C8_reset_error wEnv ⟨[]⟩ "t" false).1 (by rfl)
  · exact (C8_reset_error wEnv ⟨[]⟩ "u" false).2.1 (by rfl)

end C8
/-! ## C7: idempotent export -/

section C7
open HexTpl

/-- After writing content `c` (the winning raw content) anywhere into
the filesystem, raw resolution still returns `c`: every source the
write newly enables reads the written content, and the previously
winning source is otherwise unchanged. -/
theorem rawLoop_after_write (e : Env) (name c dp : String)
    (hr : rawLoop name (mkSources e) = .ok c) :
    rawLoop name (mkSources { e with fs := fsWrite e.fs dp c }) = .ok c := by
  have hw : ∀ q, fsLookup (fsWrite e.fs dp c) q =
      if dp = q then some c else fsLookup e.fs q := fun q => fsLookup_fsWrite
  simp only [rawLoop, mkSources, fsExists, String.reduceBEq, Bool.false_eq_true, if_false,
    if_true, reduceCtorEq, reduceIte] at hr ⊢
  by_cases b0 : dp = pjoin (pjoin e.binDir "templates") name
  · subst b0
    simp [hw]
  · cases h0 : fsLookup e.fs (pjoin (pjoin e.binDir "templates") name) with
    | some c0 =>
      simp [h0] at hr
      simp [hw, b0, h0, hr]
    | none =>
      simp [h0] at hr
      by_cases b1 : dp = pjoin ".hexago/templates" name
      · subst b1
        simp [hw, b0, h0]
      · cases h1 : fsLookup e.fs (pjoin ".hexago/templates" name) with
        | some c1 =>
          simp [h1] at hr
          simp [hw, b0, b1, h0, h1, hr]
        | none =>
          simp [h1] at hr
          by_cases b2 : dp = pjoin (pjoin e.homeDir ".hexago/templates") name
          · subst b2
            simp [hw, b0, b1, h0, h1]
          · cases h2 : fsLookup e.fs (pjoin (pjoin e.homeDir ".hexago/templates") name) with
            | some c2 =>
              simp [h2] at hr
              simp [hw, b0, b1, b2, h0, h1, h2, hr]
            | none =>
              simp [h2] at hr
              cases h3 : fsLookup e.embedded (pjoin "templates" name) with
              | some c3 =>
                simp [h3] at hr
                simp [hw, b0, b1, b2, h0, h1, h2, h3, hr]
              | none => simp [h3] at hr

/-- C7: exporting the same name twice to the same tier returns exactly
the state the first export produced — the second export overwrites the
override with byte-identical content and reports no error — and the
destination override file holds the exported content. -/
theorem C7_idempotent_export :
    ∀ (e : Env) (l : TemplateLoader) (name : String) (g : Bool) (e2 : Env),
      (Export e l name g).1 = .ok e2 →
      (Export e2 l name g).1 = .ok e2 ∧
      ∃ c, fsLookup e2.fs (destPath e g name) = some c := by
  intro e l name g e2 h
  unfold Export at h
  simp only [loadRawTemplate] at h
  cases hr : rawLoop name (mkSources e) with
  | error er => simp [hr] at h
  | ok c =>
    simp only [hr] at h
    cases h
    constructor
    · unfold Export
      simp only [loadRawTemplate]
      rw [rawLoop_after_write e name c (destPath e g name) hr]
      cases g <;> simp [destPath, fsWrite_fsWrite]
    · exact ⟨c, by simp [fsLookup_fsWrite]⟩

/-- Witness for C7: exporting the embedded template `t` to the
project-local tier twice leaves the single exported copy in place. -/
theorem C7_idempotent_export_witness :
    (Export { wEnv with fs := [(".hexago/templates/t", "E"),
        (".hexago/templates/u", "P")] } ⟨[]⟩ "t" false).1 =
      .ok { wEnv with fs := [(".hexago/templates/t", "E"), (".hexago/templates/u", "P")] } := by
  have h := (C7_idempotent_export wEnv ⟨[]⟩ "t" false
    { wEnv with fs := [(".hexago/templates/t", "E"), (".hexago/templates/u", "P")] } (by rfl)).1
  exact h

end C7
/-! ## C2: cache staleness -/

section C2
open HexTpl

/-- First-match resolution agrees with raw loading: when `resolve`
returns content `c`, the raw loop returns `.ok c`. -/
theorem resolveLoop_rawLoop {name : String} {srcs : List TemplateSource}
    {k : Nat} {c : String}
    (h : resolveLoop name srcs = some (k, c)) : rawLoop name srcs = .ok c := by
  induction srcs with
  | nil => simp [resolveLoop] at h
  | cons s rest ih =>
    cases hemb : (s.Name == "embedded") with
    | true =>
      cases hhas : s.has name with
      | true =>
        cases hre : s.read name with
        | some c2 =>
          simp [resolveLoop, hemb, hhas, hre] at h
          simp [rawLoop, hemb, hhas, hre, h.2]
        | none => simp [resolveLoop, hemb, hhas, hre] at h
      | false =>
        simp [resolveLoop, hemb, hhas] at h
        simp [rawLoop, hemb, hhas]
        exact ih h
    | false =>
      cases hhas : s.has (pjoin s.Path name) with
      | true =>
        cases hre : s.read (pjoin s.Path name) with
        | some c2 =>
          simp [resolveLoop, hemb, hhas, hre] at h
          simp [rawLoop, hemb, hhas, hre, h.2]
        | none => simp [resolveLoop, hemb, hhas, hre] at h
      | false =>
        simp [resolveLoop, hemb, hhas] at h
        simp [rawLoop, hemb, hhas]
        exact ih h

/-- When raw resolution yields `c` and `c` parses, the `Load` loop
succeeds with `c` and caches it. -/
theorem loadLoop_of_rawLoop_ok {e : Env} {l : TemplateLoader} {name c : String}
    {srcs : List TemplateSource}
    (hr : rawLoop name srcs = .ok c) (hp : e.parses c = true) :
    loadLoop e l name srcs = (.ok c, ⟨(name, c) :: l.cache⟩) := by
  induction srcs with
  | nil => simp [rawLoop] at hr
  | cons s rest ih =>
    cases hemb : (s.Name == "embedded") with
    | true =>
      cases hhas : s.has name with
      | true =>
        cases hre : s.read name with
        | some c2 =>
          simp [rawLoop, hemb, hhas, hre] at hr
          subst hr
          simp [loadLoop, hemb, hhas, hre, parseTemplate, hp]
        | none => simp [rawLoop, hemb, hhas, hre] at hr
      | false =>
        simp [rawLoop, hemb, hhas] at hr
        simp [loadLoop, hemb, hhas]
        exact ih hr
    | false =>
      cases hhas : s.has (pjoin s.Path name) with
      | true =>
        cases hre : s.read (pjoin s.Path name) with
        | some c2 =>
          simp [rawLoop, hemb, hhas, hre] at hr
          subst hr
          simp [loadLoop, hemb, hhas, hre, parseTemplate, hp]
        | none => simp [rawLoop, hemb, hhas, hre] at hr
      | false =>
        simp [rawLoop, hemb, hhas] at hr
        simp [loadLoop, hemb, hhas]
        exact ih hr

/-- C2: render, then export the name to a tier of higher priority than
the source it resolved from, then render again on the same loader:
the second render returns output byte-identical to the first (the
cached parse is reused, keyed by name only), while a freshly
constructed loader renders from the newly exported override content
(which sits at the destination path and wins resolution). -/
theorem C2_cache_staleness :
    ∀ (e : Env) (l : TemplateLoader) (name data : String) (g : Bool) (k : Nat)
      (c out : String),
      cacheLookup l name = none →
      resolve e name = some (k, c) →
      tierPriority g < k →
      e.parses c = true →
      e.exec c data = some out →
      (Render e l name data).1 = .ok out ∧
      (∀ e2 : Env, (Export e (Render e l name data).2 name g).1 = .ok e2 →
        (Render e2 (Render e l name data).2 name data).1 = .ok out ∧
        fsLookup e2.fs (destPath e g name) = some c ∧
        (Render e2 ⟨[]⟩ name data).1 = .ok out) := by
  intro e l name data g k c out hcache hres hprio hparse hexec
  have hraw : rawLoop name (mkSources e) = .ok c := resolveLoop_rawLoop hres
  have hload : Load e l name = (.ok c, ⟨(name, c) :: l.cache⟩) := by
    simp [Load, hcache, loadLoop_of_rawLoop_ok hraw hparse]
  have hrender : Render e l name data = (.ok out, ⟨(name, c) :: l.cache⟩) := by
    simp [Render, hload, hexec]
  refine ⟨by simp [hrender], ?_⟩
  intro e2 hexp
  rw [hrender] at hexp
  have hexp2 : (Export e (⟨(name, c) :: l.cache⟩ : TemplateLoader) name g).1 =
      .ok { e with fs := fsWrite e.fs (destPath e g name) c } := by
    simp [Export, loadRawTemplate, hraw]
  rw [hexp2] at hexp
  cases hexp
  have hhit : cacheLookup (⟨(name, c) :: l.cache⟩ : TemplateLoader) name = some c := by
    simp [cacheLookup, fsLookup]
  refine ⟨?_, ?_, ?_⟩
  · rw [hrender]
    simp [Render, Load, hhit, hexec]
  · simp [fsLookup_fsWrite]
  · have hraw2 := rawLoop_after_write e name c (destPath e g name) hraw
    have hp2 : ({ e with fs := fsWrite e.fs (destPath e g name) c } : Env).parses c = true :=
      hparse
    have hll := loadLoop_of_rawLoop_ok
      (e := { e with fs := fsWrite e.fs (destPath e g name) c }) (l := ⟨[]⟩) hraw2 hp2
    have hload2 : Load { e with fs := fsWrite e.fs (destPath e g name) c } ⟨[]⟩ name =
        (.ok c, ⟨[(name, c)]⟩) := by
      simp [Load, cacheLookup, fsLookup, hll]
    simp [Render, hload2, hexec]

/-- Witness for C2: rendering the embedded `t` then exporting it
project-locally; the stale loader and a fresh loader render the same
bytes, and the override file holds the exported content. -/
theorem C2_cache_staleness_witness :
    (Render wEnv ⟨[]⟩ "t" "!").1 = .ok "E!" ∧
    (Render { wEnv with fs := [(".hexago/templates/t", "E"), (".hexago/templates/u", "P")] }
      ⟨[("t", "E")]⟩ "t" "!").1 = .ok "E!" ∧
    (Render { wEnv with fs := [(".hexago/templates/t", "E"), (".hexago/templates/u", "P")] }
      ⟨[]⟩ "t" "!").1 = .ok "E!" := by
  have h := C2_cache_staleness wEnv ⟨[]⟩ "t" "!" false 4 "E" "E!"
    rfl rfl (by decide) rfl rfl
  have h2 := h.2 { wEnv with fs := [(".hexago/templates/t", "E"), (".hexago/templates/u", "P")] }
    (by rfl)
  exact ⟨h.1, h2.1, h2.2.2⟩

end C2
section C6
open HexTpl

/-- Counterexample to C6 as stated: `t` resolves at the binary-local
source; exporting it to the user-global tier succeeds, but `Which` on
a fresh loader still reports the binary-local label, not the label for
the export tier. -/
theorem C6_round_trip_counterexample :
    (Export c6Env ⟨[]⟩ "t" true).1 = .ok c6EnvAfter ∧
    (Which c6EnvAfter ⟨[]⟩ "t").1 = .ok "binary-local (bin/templates/t)" ∧
    ("binary-local (bin/templates/t)" : String) ≠ "user-global (home/.hexago/templates/t)" := by
  refine ⟨rfl, rfl, by decide⟩

/-- C6 (amended): for a name whose winning source has strictly lower
priority than the target tier (and whose higher-priority source paths
do not collide with the override destination), `Export(name, tier)`
followed by `Which(name)` on a fresh loader returns the label for the
tier, and a subsequent `Reset(name, tier)` followed by `Which(name)`
returns the label of the next-lower-priority source providing the
name — the source that originally won. -/
theorem C6_round_trip_amended :
    ∀ (e : Env) (l : TemplateLoader) (name : String) (g : Bool) (k : Nat) (c : String),
      resolve e name = some (k, c) →
      tierPriority g < k →
      (∀ j, j < 3 → j + 1 ≠ tierPriority g → srcPathAt e j name ≠ destPath e g name) →
      ∀ e2 : Env, (Export e l name g).1 = .ok e2 →
        (Which e2 l name).1 = .ok (srcLabelAt e (tierPriority g - 1) name) ∧
        ∃ e3 : Env, (Reset e2 l name g).1 = .ok e3 ∧
          (Which e3 l name).1 = .ok (srcLabelAt e (k - 1) name) := by
  intro e l name g k c hres hprio hdisj e2 hexp
  have hraw : rawLoop name (mkSources e) = .ok c := resolveLoop_rawLoop hres
  have he2 : { e with fs := fsWrite e.fs (destPath e g name) c } = e2 := by
    simp [Export, loadRawTemplate, hraw] at hexp
    exact hexp
  subst he2
  simp only [resolve, resolveLoop, mkSources, fsExists] at hres
  cases g
  · -- project-local tier, priority 2
    simp only [tierPriority, Bool.false_eq_true, if_false] at hprio ⊢
    simp only [destPath, Bool.false_eq_true, if_false] at hdisj ⊢
    have hn0 : ¬ (pjoin ".hexago/templates" name = pjoin (pjoin e.binDir "templates") name) :=
      fun h => hdisj 0 (by omega) (by decide) h.symm
    have hn2 : ¬ (pjoin ".hexago/templates" name =
        pjoin (pjoin e.homeDir ".hexago/templates") name) :=
      fun h => hdisj 2 (by omega) (by decide) h.symm
    cases h0 : fsLookup e.fs (pjoin (pjoin e.binDir "templates") name) with
    | some c0 =>
      simp [h0] at hres
      omega
    | none =>
      simp [h0] at hres
      cases h1 : fsLookup e.fs (pjoin ".hexago/templates" name) with
      | some c1 =>
        simp [h1] at hres
        omega
      | none =>
        simp [h1] at hres
        cases h2 : fsLookup e.fs (pjoin (pjoin e.homeDir ".hexago/templates") name) with
        | some c2 =>
          simp [h2] at hres
          obtain ⟨hk, hc⟩ := hres
          subst hc
          subst hk
          have hrm := fsRemove_fsWrite_of_absent (c := c2) h1
          refine ⟨?_, e, ?_, ?_⟩
          · simp [Which, whichLoop, mkSources, fsExists, fsLookup_fsWrite, hn0, h0, srcLabelAt]
          · simp [Reset, destPath, fsExists, fsLookup_fsWrite, hrm]
          · simp [Which, whichLoop, mkSources, fsExists, h0, h1, h2, srcLabelAt]
        | none =>
          simp [h2] at hres
          cases h3 : fsLookup e.embedded (pjoin "templates" name) with
          | some c3 =>
            simp [h3] at hres
            obtain ⟨hk, hc⟩ := hres
            subst hc
            subst hk
            have hrm := fsRemove_fsWrite_of_absent (c := c3) h1
            refine ⟨?_, e, ?_, ?_⟩
            · simp [Which, whichLoop, mkSources, fsExists, fsLookup_fsWrite, hn0, h0,
                srcLabelAt]
            · simp [Reset, destPath, fsExists, fsLookup_fsWrite, hrm]
            · simp [Which, whichLoop, mkSources, fsExists, h0, h1, h2, h3, srcLabelAt]
          | none => simp [h3] at hres
  · -- user-global tier, priority 3
    simp only [tierPriority, if_true] at hprio ⊢
    simp only [destPath, if_true] at hdisj ⊢
    have hn0 : ¬ (pjoin (pjoin e.homeDir ".hexago/templates") name =
        pjoin (pjoin e.binDir "templates") name) :=
      fun h => hdisj 0 (by omega) (by decide) h.symm
    have hn1 : ¬ (pjoin (pjoin e.homeDir ".hexago/templates") name =
        pjoin ".hexago/templates" name) :=
      fun h => hdisj 1 (by omega) (by decide) h.symm
    cases h0 : fsLookup e.fs (pjoin (pjoin e.binDir "templates") name) with
    | some c0 =>
      simp [h0] at hres
      omega
    | none =>
      simp [h0] at hres
      cases h1 : fsLookup e.fs (pjoin ".hexago/templates" name) with
      | some c1 =>
        simp [h1] at hres
        omega
      | none =>
        simp [h1] at hres
        cases h2 : fsLookup e.fs (pjoin (pjoin e.homeDir ".hexago/templates") name) with
        | some c2 =>
          simp [h2] at hres
          omega
        | none =>
          simp [h2] at hres
          cases h3 : fsLookup e.embedded (pjoin "templates" name) with
          | some c3 =>
            simp [h3] at hres
            obtain ⟨hk, hc⟩ := hres
            subst hc
            subst hk
            have hrm := fsRemove_fsWrite_of_absent (c := c3) h2
            refine ⟨?_, e, ?_, ?_⟩
            · simp [Which, whichLoop, mkSources, fsExists, fsLookup_fsWrite, hn0, hn1, h0, h1,
                srcLabelAt]
            · simp [Reset, destPath, fsExists, fsLookup_fsWrite, hrm]
            · simp [Which, whichLoop, mkSources, fsExists, h0, h1, h2, h3, srcLabelAt]
          | none => simp [h3] at hres

/-- Witness for the amended C6: exporting the embedded-only `t` to the
project-local tier makes `Which` report the project-local label, and
resetting it restores the embedded label. -/
theorem C6_round_trip_amended_witness :
    (Which { wEnv with fs := [(".hexago/templates/t", "E"), (".hexago/templates/u", "P")] }
      ⟨[]⟩ "t").1 = .ok "project-local (.hexago/templates/t)" ∧
    ∃ e3 : HexTpl.Env,
      (Reset { wEnv with fs := [(".hexago/templates/t", "E"), (".hexago/templates/u", "P")] }
        ⟨[]⟩ "t" false).1 = .ok e3 ∧
      (Which e3 ⟨[]⟩ "t").1 = .ok "embedded (embedded)" := by
  have h := C6_round_trip_amended wEnv ⟨[]⟩ "t" false 4 "E" rfl (by decide)
    (by
      intro j hj hne
      interval_cases j
      · decide
      · exact absurd (by rfl) hne
      · decide)
    { wEnv with fs := [(".hexago/templates/t", "E"), (".hexago/templates/u", "P")] }
    (by rfl)
  exact h

end C6
/-! ## Validator decomposition: the contribution of each check -/

namespace HexVal

theorem validateProjectStructure_eq (cfg : ProjectConfig) (t : Tree) (r : ValidationResult) :
    validateProjectStructure cfg t r =
      { r with Successes := r.Successes ++ (structureDeltas cfg t).1,
               Warnings := r.Warnings ++ (structureDeltas cfg t).2 } := by
  simp only [validateProjectStructure, requiredDirs, structureDeltas, List.foldl_cons,
    List.foldl_nil, List.filterMap]
  split_ifs <;> simp

theorem validateCoreDependencies_eq (cfg : ProjectConfig) (t : Tree) (r : ValidationResult) :
    validateCoreDependencies cfg t r =
      { r with Successes := r.Successes ++ (coreDeltas cfg t).1,
               Warnings := r.Warnings ++ (coreDeltas cfg t).2.1,
               Errors := r.Errors ++ (coreDeltas cfg t).2.2 } := by
  unfold validateCoreDependencies coreDeltas
  cases hci : checkImports cfg t "internal/core/domain" domainAllowed with
  | error msg => simp
  | ok vs =>
    by_cases hvs : vs.isEmpty
    · simp [hvs]
    · simp [hvs]

theorem validateServiceDependencies_eq (cfg : ProjectConfig) (t : Tree) (r : ValidationResult) :
    validateServiceDependencies cfg t r =
      { r with Successes := r.Successes ++ (serviceDeltas cfg t).1,
               Warnings := r.Warnings ++ (serviceDeltas cfg t).2.1,
               Errors := r.Errors ++ (serviceDeltas cfg t).2.2 } := by
  unfold validateServiceDependencies serviceDeltas
  cases hci : checkImports cfg t (pjoinV "internal/core" (CoreLogicDir cfg)) (serviceAllowed cfg) with
  | error msg => simp
  | ok vs =>
    by_cases hvs : vs.isEmpty
    · simp [hvs]
    · simp [hvs]

theorem validateAdapterDependencies_eq (cfg : ProjectConfig) (t : Tree) (r : ValidationResult) :
    validateAdapterDependencies cfg t r =
      { r with Successes := r.Successes ++ (adapterDeltas cfg t).1,
               Warnings := r.Warnings ++ (adapterDeltas cfg t).2 } := by
  unfold validateAdapterDependencies adapterDeltas
  cases hci : checkImports cfg t "internal/adapters" adapterAllowed with
  | error msg => simp
  | ok vs =>
    by_cases hvs : vs.isEmpty
    · simp [hvs]
    · simp [hvs]

theorem validateNamingConventions_eq (cfg : ProjectConfig) (t : Tree) (r : ValidationResult) :
    validateNamingConventions cfg t r =
      { r with Successes := r.Successes ++ namingDelta cfg t } := by
  unfold validateNamingConventions namingDelta
  split_ifs <;> simp

/-- `Validate` decomposed into the five checks' contributions. -/
theorem Validate_decomp (cfg : ProjectConfig) (t : Tree) :
    Validate cfg t =
      { Successes := (structureDeltas cfg t).1 ++ (coreDeltas cfg t).1 ++
          (serviceDeltas cfg t).1 ++ (adapterDeltas cfg t).1 ++ namingDelta cfg t,
        Warnings := (structureDeltas cfg t).2 ++ (coreDeltas cfg t).2.1 ++
          (serviceDeltas cfg t).2.1 ++ (adapterDeltas cfg t).2,
        Errors := (coreDeltas cfg t).2.2 ++ (serviceDeltas cfg t).2.2 } := by
  unfold Validate
  rw [validateProjectStructure_eq, validateCoreDependencies_eq, validateServiceDependencies_eq,
    validateAdapterDependencies_eq, validateNamingConventions_eq]
  simp [List.append_assoc]

end HexVal

/-! ## C9: unparseable files are silently skipped -/

section C9
open HexVal

/-- A file whose declared-dependency section fails to parse
contributes no violations, whatever the layer predicate. -/
theorem fileViolations_parse_none (cfg : ProjectConfig) (p : String → Bool)
    (fl : TreeFile) (h : fl.parse = none) : fileViolations cfg p fl = [] := by
  unfold fileViolations
  split
  · rfl
  · rw [h]

/-- Removing a file that contributes no violations leaves
`checkImports` unchanged. -/
theorem checkImports_middle (cfg : ProjectConfig) (dirs : List String)
    (l1 l2 : List TreeFile) (f : TreeFile) (dir : String) (p : String → Bool)
    (h : fileViolations cfg p f = []) :
    checkImports cfg ⟨dirs, l1 ++ f :: l2⟩ dir p =
      checkImports cfg ⟨dirs, l1 ++ l2⟩ dir p := by
  by_cases hd : dir ∈ dirs
  · by_cases hf : strHasPref f.path (dir ++ "/") = true
    · simp [checkImports, hd, hf, List.filter_append, List.filter_cons,
        List.flatMap_append, h]
    · simp [checkImports, hd, hf, List.filter_append, List.filter_cons,
        List.flatMap_append]
  · simp [checkImports, hd]

/-- C9: a non-test `.go` file under the tree whose declared-dependency
section fails to parse contributes no error, warning or violation;
the whole validation run produces exactly the result it would produce
were the file absent. -/
theorem C9_unparseable_skipped :
    ∀ (cfg : ProjectConfig) (dirs : List String) (l1 l2 : List TreeFile) (f : TreeFile),
      strHasSuffix f.path ".go" = true →
      strHasSuffix f.path "_test.go" = false →
      f.parse = none →
      Validate cfg ⟨dirs, l1 ++ f :: l2⟩ = Validate cfg ⟨dirs, l1 ++ l2⟩ := by
  intro cfg dirs l1 l2 f hgo htest hp
  have hfv : ∀ q : String → Bool, fileViolations cfg q f = [] :=
    fun q => fileViolations_parse_none cfg q f hp
  rw [Validate_decomp, Validate_decomp]
  have hcore : coreDeltas cfg ⟨dirs, l1 ++ f :: l2⟩ = coreDeltas cfg ⟨dirs, l1 ++ l2⟩ := by
    unfold coreDeltas
    rw [checkImports_middle cfg dirs l1 l2 f _ _ (hfv _)]
  have hservice : serviceDeltas cfg ⟨dirs, l1 ++ f :: l2⟩ =
      serviceDeltas cfg ⟨dirs, l1 ++ l2⟩ := by
    unfold serviceDeltas
    rw [checkImports_middle cfg dirs l1 l2 f _ _ (hfv _)]
  have hadapter : adapterDeltas cfg ⟨dirs, l1 ++ f :: l2⟩ =
      adapterDeltas cfg ⟨dirs, l1 ++ l2⟩ := by
    unfold adapterDeltas
    rw [checkImports_middle cfg dirs l1 l2 f _ _ (hfv _)]
  rw [hcore, hservice, hadapter]
  rfl

/-- Witness for C9: a domain-layer file with an unparseable import
section leaves the validation result exactly as if it were absent. -/
theorem C9_unparseable_skipped_witness :
    Validate (stdCfg "m") ⟨["internal/core/domain"], [⟨"internal/core/domain/bad.go", none⟩]⟩ =
      Validate (stdCfg "m") ⟨["internal/core/domain"], []⟩ := by
  exact C9_unparseable_skipped (stdCfg "m") ["internal/core/domain"] [] []
    ⟨"internal/core/domain/bad.go", none⟩ (by decide) (by decide) rfl

end C9

/-! ## C4: the adapter-layer rule -/

section C4
open HexVal

/-- The adapter-layer allow predicate accepts every path. -/
theorem adapterAllowed_true (ip : String) : adapterAllowed ip = true := by
  simp [adapterAllowed]

/-- No file ever contributes an adapter-layer violation. -/
theorem fileViolations_adapter (cfg : ProjectConfig) (fl : TreeFile) :
    fileViolations cfg adapterAllowed fl = [] := by
  unfold fileViolations
  split
  · rfl
  · cases hp : fl.parse with
    | none => rfl
    | some imps => simp [adapterAllowed_true]

/-- Counterexample to C4 as stated: the tree holds a non-test adapter
compilation unit declaring a module-internal, cross-adapter dependency
(`m/internal/adapters/secondary/database/repo`), yet `Validate`
produces no Warning at all (and no Error). -/
theorem C4_adapter_warning_counterexample :
    strHasPref "internal/adapters/primary/http/h.go" "internal/adapters/" = true ∧
    strHasPref "m/internal/adapters/secondary/database/repo" "m" = true ∧
    containsSub "m/internal/adapters/secondary/database/repo" "/adapters/" = true ∧
    (Validate (stdCfg "m") adapterTree).Warnings = [] ∧
    (Validate (stdCfg "m") adapterTree).Errors = [] := by
  refine ⟨by decide, by decide, by decide, by decide, by decide⟩

/-- C4 (amended): during the adapter-layer check every internal
dependency is permitted — the allow predicate returns true on every
path, so the check records no Error and, contrary to the claim, no
Warning for cross-adapter dependencies either: when the adapters
directory exists, the check appends exactly the Success entry, and a
warning arises only when the directory walk fails. -/
theorem C4_adapter_layer_amended :
    ∀ (cfg : ProjectConfig) (t : Tree) (r : ValidationResult),
      (validateAdapterDependencies cfg t r).Errors = r.Errors ∧
      (t.dirs.contains "internal/adapters" = true →
        validateAdapterDependencies cfg t r =
          { r with Successes := r.Successes ++ ["Adapters follow dependency rules"] }) ∧
      (t.dirs.contains "internal/adapters" = false →
        validateAdapterDependencies cfg t r =
          { r with Warnings := r.Warnings ++
              ["Could not check adapter dependencies: lstat internal/adapters: no such file or directory"] }) := by
  intro cfg t r
  by_cases hm : "internal/adapters" ∈ t.dirs
  · have hok : checkImports cfg t "internal/adapters" adapterAllowed = .ok [] := by
      simp [checkImports, hm, List.flatMap_eq_nil_iff, fileViolations_adapter]
    refine ⟨?_, fun _ => ?_, fun hfalse => ?_⟩
    · simp [validateAdapterDependencies, hok]
    · simp [validateAdapterDependencies, hok]
    · simp [hm] at hfalse
  · have herr : checkImports cfg t "internal/adapters" adapterAllowed =
        .error "lstat internal/adapters: no such file or directory" := by
      simp [checkImports, hm]
    refine ⟨?_, fun htrue => ?_, fun _ => ?_⟩
    · simp [validateAdapterDependencies, herr]
    · simp [hm] at htrue
    · simp [validateAdapterDependencies, herr]

/-- Witness for the amended C4: on the concrete tree with a
cross-adapter import, the adapter check appends exactly its Success
entry. -/
theorem C4_adapter_layer_amended_witness :
    validateAdapterDependencies (stdCfg "m") adapterTree ⟨[], [], []⟩ =
      ⟨["Adapters follow dependency rules"], [], []⟩ := by
  exact (C4_adapter_layer_amended (stdCfg "m") adapterTree ⟨[], [], []⟩).2.1 (by decide)

end C4

/-! ## C3: the domain-layer violation scenario -/

section C3
open HexVal

/-- Prefix implies transitive prefix for character lists. -/
theorem isPrefixOf_trans {a b c : List Char} (h1 : a.isPrefixOf b = true)
    (h2 : b.isPrefixOf c = true) : a.isPrefixOf c = true := by
  rw [ List.isPrefixOf_iff_prefix] at h1 h2 ⊢
  exact h1.trans h2

/-- A string containing a pattern contains every prefix of that
pattern (used to pass from `/adapters/secondary/database` to
`/adapters/`). -/
theorem isSubChars_mono {p2 p1 : List Char} (hpre : p2.isPrefixOf p1 = true) :
    ∀ {s : List Char}, isSubChars p1 s = true → isSubChars p2 s = true := by
  intro s
  induction s with
  | nil =>
    intro h
    simp only [isSubChars, List.isEmpty_iff] at h ⊢
    subst h
    cases p2 with
    | nil => rfl
    | cons x xs => simp [List.isPrefixOf] at hpre
  | cons c cs ih =>
    intro h
    simp only [isSubChars, Bool.or_eq_true] at h ⊢
    rcases h with h | h
    · exact .inl (isPrefixOf_trans hpre h)
    · exact .inr (ih h)

/-- `strings.Contains` is monotone under prefix-shrinking of the
pattern. -/
theorem containsSub_mono {s big small : String}
    (hpre : small.data.isPrefixOf big.data = true)
    (h : containsSub s big = true) : containsSub s small = true :=
  isSubChars_mono hpre h

/-- Every violation a file contributes names that file. -/
theorem mem_fileViolations_file {cfg : ProjectConfig} {pred : String → Bool}
    {fl : TreeFile} {v : importViolation}
    (h : v ∈ fileViolations cfg pred fl) : v.file = fl.path := by
  unfold fileViolations at h
  split at h
  · simp at h
  · revert h
    cases fl.parse with
    | none => intro h; simp at h
    | some imps =>
      intro h
      simp only [List.mem_map] at h
      obtain ⟨ip2, _, rfl⟩ := h
      rfl

/-- The only success the domain check can add, and it requires an
empty violation list. -/
theorem mem_coreDeltas_succ {cfg : ProjectConfig} {t : Tree} {s : String}
    (h : s ∈ (coreDeltas cfg t).1) :
    s = "Core domain has no external dependencies" ∧
    checkImports cfg t "internal/core/domain" domainAllowed = .ok [] := by
  unfold coreDeltas at h
  cases hci : checkImports cfg t "internal/core/domain" domainAllowed with
  | error msg =>
    rw [hci] at h
    simp at h
  | ok vs =>
    rw [hci] at h
    by_cases hvs : vs.isEmpty = true
    · simp [hvs] at h
      refine ⟨h, ?_⟩
      rw [List.isEmpty_iff.mp hvs]
    · simp [hvs] at h

/-- The only success the business-logic check can add. -/
theorem mem_serviceDeltas_succ {cfg : ProjectConfig} {t : Tree} {s : String}
    (h : s ∈ (serviceDeltas cfg t).1) :
    s = titleCase (CoreLogicDir cfg) ++ " only depend on domain and ports" := by
  unfold serviceDeltas at h
  split at h
  · simp at h
  · split at h
    · simpa using h
    · simp at h

/-- The only success the adapter check can add. -/
theorem mem_adapterDeltas_succ {cfg : ProjectConfig} {t : Tree} {s : String}
    (h : s ∈ (adapterDeltas cfg t).1) : s = "Adapters follow dependency rules" := by
  unfold adapterDeltas at h
  split at h
  · simp at h
  · split at h
    · simpa using h
    · simp at h

/-- The successes the structure check can add. -/
theorem mem_structureDeltas_succ {cfg : ProjectConfig} {t : Tree} {s : String}
    (h : s ∈ (structureDeltas cfg t).1) :
    s = "Domain directory exists" ∨ s = "Core logic directory exists" ∨
    s = "Inbound adapters directory exists" ∨ s = "Outbound adapters directory exists" ∨
    s = "Config directory exists" := by
  unfold structureDeltas requiredDirs at h
  obtain ⟨d, hd, hfd⟩ := List.mem_filterMap.mp h
  simp only [List.mem_cons, List.not_mem_nil, or_false] at hd
  rcases hd with rfl | rfl | rfl | rfl | rfl <;> (split at hfd <;> simp_all)

/-- The successes the naming-convention check can add. -/
theorem mem_namingDelta {cfg : ProjectConfig} {t : Tree} {s : String}
    (h : s ∈ namingDelta cfg t) :
    s = "Using " ++ AdapterInboundDir cfg ++ " for inbound adapters" ∨
    s = "Using " ++ AdapterOutboundDir cfg ++ " for outbound adapters" ∨
    s = "Using " ++ CoreLogicDir cfg ++ " for business logic" := by
  unfold namingDelta at h
  split_ifs at h <;> simp_all <;> tauto

/-- C3: a tree with a non-test domain-layer compilation unit declaring
(once) a module-prefixed dependency containing
`/adapters/secondary/database` yields exactly one domain violation for
that file and path — every other violation names a different file or
path — that violation appears as an Error entry of the run, and the
Success entry `Core domain has no external dependencies` is not
added. -/
theorem C3_domain_violation :
    ∀ (m : String) (dirs : List String) (l1 l2 : List TreeFile) (fpath : String)
      (i1 i2 : List String) (ip : String),
      "internal/core/domain" ∈ dirs →
      strHasPref fpath "internal/core/domain/" = true →
      strHasSuffix fpath ".go" = true →
      strHasSuffix fpath "_test.go" = false →
      strHasPref ip m = true →
      containsSub ip "/adapters/secondary/database" = true →
      ip ∉ i1 → ip ∉ i2 →
      (∀ g ∈ l1 ++ l2, g.path ≠ fpath) →
      (∃ A B : List importViolation,
        checkImports (stdCfg m) ⟨dirs, l1 ++ ⟨fpath, some (i1 ++ ip :: i2)⟩ :: l2⟩
            "internal/core/domain" domainAllowed =
          .ok (A ++ ⟨fpath, ip⟩ :: B) ∧
        (⟨fpath, ip⟩ : importViolation) ∉ A ∧ (⟨fpath, ip⟩ : importViolation) ∉ B) ∧
      ("Domain imports external package: " ++ ip ++ " in " ++ fpath) ∈
        (Validate (stdCfg m) ⟨dirs, l1 ++ ⟨fpath, some (i1 ++ ip :: i2)⟩ :: l2⟩).Errors ∧
      "Core domain has no external dependencies" ∉
        (Validate (stdCfg m) ⟨dirs, l1 ++ ⟨fpath, some (i1 ++ ip :: i2)⟩ :: l2⟩).Successes := by
  intro m dirs l1 l2 fpath i1 i2 ip hdom hunder hgo htest hmod hsub hip1 hip2 hdist
  have hadap : containsSub ip "/adapters/" = true :=
    containsSub_mono (by decide) hsub
  have hq : (strHasPref ip (stdCfg m).ModuleName && !domainAllowed ip) = true := by
    simp [stdCfg, hmod, domainAllowed, hadap]
  set f : TreeFile := ⟨fpath, some (i1 ++ ip :: i2)⟩ with hf
  set t : Tree := ⟨dirs, l1 ++ f :: l2⟩ with ht
  set pair : importViolation := ⟨fpath, ip⟩ with hpair
  have hfvf : fileViolations (stdCfg m) domainAllowed f =
      (i1.filter (fun x => strHasPref x (stdCfg m).ModuleName && !domainAllowed x)).map
        (fun x => (⟨fpath, x⟩ : importViolation)) ++ pair ::
      (i2.filter (fun x => strHasPref x (stdCfg m).ModuleName && !domainAllowed x)).map
        (fun x => (⟨fpath, x⟩ : importViolation)) := by
    simp [fileViolations, hf, hgo, htest, List.filter_append, List.filter_cons, hq, hpair]
  have hci : checkImports (stdCfg m) t "internal/core/domain" domainAllowed =
      .ok (((l1.filter (fun fl => strHasPref fl.path "internal/core/domain/")).flatMap
              (fileViolations (stdCfg m) domainAllowed) ++
            (i1.filter (fun x => strHasPref x (stdCfg m).ModuleName && !domainAllowed x)).map
              (fun x => (⟨fpath, x⟩ : importViolation))) ++ pair ::
           ((i2.filter (fun x => strHasPref x (stdCfg m).ModuleName && !domainAllowed x)).map
              (fun x => (⟨fpath, x⟩ : importViolation)) ++
            (l2.filter (fun fl => strHasPref fl.path "internal/core/domain/")).flatMap
              (fileViolations (stdCfg m) domainAllowed))) := by
    simp [checkImports, ht, hdom, List.filter_append, List.filter_cons, hf, hunder,
      List.flatMap_append, hfvf]
  have hnotA : pair ∉
      (l1.filter (fun fl => strHasPref fl.path "internal/core/domain/")).flatMap
        (fileViolations (stdCfg m) domainAllowed) ++
      (i1.filter (fun x => strHasPref x (stdCfg m).ModuleName && !domainAllowed x)).map
        (fun x => (⟨fpath, x⟩ : importViolation)) := by
    intro hmem
    rcases List.mem_append.mp hmem with hmem | hmem
    · obtain ⟨g, hg, hvg⟩ := List.mem_flatMap.mp hmem
      have hfile := mem_fileViolations_file hvg
      exact hdist g (List.mem_append_left _ (List.mem_of_mem_filter hg)) hfile.symm
    · obtain ⟨x, hx, hpx⟩ := List.mem_map.mp hmem
      have hxip : x = ip := by
        have := congrArg importViolation.importPath hpx
        simpa [hpair] using this
      exact hip1 (hxip ▸ List.mem_of_mem_filter hx)
  have hnotB : pair ∉
      (i2.filter (fun x => strHasPref x (stdCfg m).ModuleName && !domainAllowed x)).map
        (fun x => (⟨fpath, x⟩ : importViolation)) ++
      (l2.filter (fun fl => strHasPref fl.path "internal/core/domain/")).flatMap
        (fileViolations (stdCfg m) domainAllowed) := by
    intro hmem
    rcases List.mem_append.mp hmem with hmem | hmem
    · obtain ⟨x, hx, hpx⟩ := List.mem_map.mp hmem
      have hxip : x = ip := by
        have := congrArg importViolation.importPath hpx
        simpa [hpair] using this
      exact hip2 (hxip ▸ List.mem_of_mem_filter hx)
    · obtain ⟨g, hg, hvg⟩ := List.mem_flatMap.mp hmem
      have hfile := mem_fileViolations_file hvg
      exact hdist g (List.mem_append_right _ (List.mem_of_mem_filter hg)) hfile.symm
  have hcore2 : ("Domain imports external package: " ++ ip ++ " in " ++ fpath) ∈
      (coreDeltas (stdCfg m) t).2.2 := by
    unfold coreDeltas
    rw [hci]
    simp only [List.isEmpty_eq_true, List.append_eq_nil, List.cons_ne_nil, and_false,
      Bool.false_eq_true, if_false, reduceCtorEq]
    refine List.mem_map.mpr ⟨pair, ?_, by simp [hpair]⟩
    exact List.mem_append_right _ (List.mem_cons_self _ _)
  refine ⟨⟨_, _, hci, hnotA, hnotB⟩, ?_, ?_⟩
  · rw [Validate_decomp]
    exact List.mem_append_left _ hcore2
  · intro hmem
    rw [Validate_decomp] at hmem
    simp only [List.mem_append] at hmem
    rcases hmem with ((((hs | hs) | hs) | hs) | hs)
    · rcases mem_structureDeltas_succ hs with h | h | h | h | h <;> simp at h
    · obtain ⟨h, hok⟩ := mem_coreDeltas_succ hs
      rw [hci] at hok
      simp at hok
    · have h := mem_serviceDeltas_succ hs
      have ht2 : titleCase (CoreLogicDir (stdCfg m)) = "Services" := rfl
      rw [ht2] at h
      simp at h
    · have h := mem_adapterDeltas_succ hs
      simp at h
    · rcases mem_namingDelta hs with h | h | h <;> simp [stdCfg, AdapterInboundDir,
        AdapterOutboundDir, CoreLogicDir] at h

/-- Witness for C3 on the concrete domain tree: the violation error is
reported and the domain success is absent. -/
theorem C3_domain_violation_witness :
    ("Domain imports external package: m/internal/adapters/secondary/database in internal/core/domain/user.go" ∈
      (Validate (stdCfg "m") domainTree).Errors) ∧
    "Core domain has no external dependencies" ∉
      (Validate (stdCfg "m") domainTree).Successes := by
  have h := C3_domain_violation "m" ["internal/core/domain"] [] []
    "internal/core/domain/user.go" ["fmt"] [] "m/internal/adapters/secondary/database"
    (by decide) (by decide) (by decide) (by decide) (by decide) (by decide)
    (by decide) (by decide) (by intro g hg; simp at hg)
  exact ⟨h.2.1, h.2.2⟩

end C3

/-! ## C5: the missing-structure scenario -/

section C5
open HexVal

/-- Counterexample to C5 as stated: with the business-logic directory
absent, `Validate` adds two distinct Warning entries naming that
directory (the structure warning and the could-not-check warning from
the failed walk), not exactly one — and zero Errors. -/
theorem C5_missing_structure_counterexample :
    (Validate (stdCfg "m") missingSvcTree).Warnings =
      ["Core logic directory not found: internal/core/services",
       "Could not check services dependencies: lstat internal/core/services: no such file or directory"] ∧
    (Validate (stdCfg "m") missingSvcTree).Errors = [] ∧
    ("Core logic directory not found: internal/core/services" : String) ≠
      "Could not check services dependencies: lstat internal/core/services: no such file or directory" ∧
    containsSub "Core logic directory not found: internal/core/services"
      "internal/core/services" = true ∧
    containsSub
      "Could not check services dependencies: lstat internal/core/services: no such file or directory"
      "internal/core/services" = true := by
  refine ⟨by decide, by decide, by decide, by decide, by decide⟩

/-- C5 (amended): with the business-logic directory entirely absent,
`Validate` adds exactly two Warning entries attributable to the
absence — the structure warning naming the directory and the
could-not-check warning from the dependency walk — and zero Error
entries attributable to it: the error list equals that of the same
tree with the (empty) directory present. -/
theorem C5_missing_structure_amended :
    ∀ (m : String) (dirs : List String) (files : List TreeFile),
      "internal/core/services" ∉ dirs →
      (∀ fl ∈ files, strHasPref fl.path "internal/core/services/" = false) →
      ∃ u v w : List String,
        (Validate (stdCfg m) ⟨dirs, files⟩).Warnings =
          u ++ "Core logic directory not found: internal/core/services" ::
            (v ++ "Could not check services dependencies: lstat internal/core/services: no such file or directory" :: w) ∧
        (Validate (stdCfg m) ⟨dirs ++ ["internal/core/services"], files⟩).Warnings =
          u ++ (v ++ w) ∧
        (Validate (stdCfg m) ⟨dirs, files⟩).Errors =
          (Validate (stdCfg m) ⟨dirs ++ ["internal/core/services"], files⟩).Errors := by
  intro m dirs files habs hfiles
  have hfilter : files.filter (fun fl => strHasPref fl.path "internal/core/services/") = [] := by
    simp only [List.filter_eq_nil_iff]
    intro fl hfl
    simp [hfiles fl hfl]
  have hserT : serviceDeltas (stdCfg m) ⟨dirs, files⟩ =
      ([], ["Could not check services dependencies: lstat internal/core/services: no such file or directory"], []) := by
    unfold serviceDeltas checkImports
    simp [stdCfg, CoreLogicDir, pjoinV, habs]
  have hserT2 : serviceDeltas (stdCfg m) ⟨dirs ++ ["internal/core/services"], files⟩ =
      (["Services only depend on domain and ports"], [], []) := by
    unfold serviceDeltas checkImports
    simp [stdCfg, CoreLogicDir, pjoinV, hfilter,
      (show titleCase "services" = "Services" from rfl)]
  have hcoreEq : coreDeltas (stdCfg m) ⟨dirs ++ ["internal/core/services"], files⟩ =
      coreDeltas (stdCfg m) ⟨dirs, files⟩ := by
    unfold coreDeltas checkImports
    simp
  have hadEq : adapterDeltas (stdCfg m) ⟨dirs ++ ["internal/core/services"], files⟩ =
      adapterDeltas (stdCfg m) ⟨dirs, files⟩ := by
    unfold adapterDeltas checkImports
    simp
  refine ⟨(if "internal/core/domain" ∈ dirs then [] else
      ["Domain directory not found: internal/core/domain"]),
    ((if "internal/adapters/primary" ∈ dirs then [] else
      ["Inbound adapters directory not found: internal/adapters/primary"]) ++
     (if "internal/adapters/secondary" ∈ dirs then [] else
      ["Outbound adapters directory not found: internal/adapters/secondary"]) ++
     (if "internal/config" ∈ dirs then [] else
      ["Config directory not found: internal/config"]) ++
     (coreDeltas (stdCfg m) ⟨dirs, files⟩).2.1),
    (adapterDeltas (stdCfg m) ⟨dirs, files⟩).2, ?_, ?_, ?_⟩
  · rw [Validate_decomp]
    rw [hserT]
    by_cases h1 : "internal/core/domain" ∈ dirs <;>
      by_cases h2 : "internal/adapters/primary" ∈ dirs <;>
        by_cases h3 : "internal/adapters/secondary" ∈ dirs <;>
          by_cases h4 : "internal/config" ∈ dirs <;>
            simp [structureDeltas, requiredDirs, stdCfg, CoreLogicDir, AdapterInboundDir,
              AdapterOutboundDir, pjoinV, habs, h1, h2, h3, h4]
  · rw [Validate_decomp]
    rw [hserT2, hcoreEq, hadEq]
    by_cases h1 : "internal/core/domain" ∈ dirs <;>
      by_cases h2 : "internal/adapters/primary" ∈ dirs <;>
        by_cases h3 : "internal/adapters/secondary" ∈ dirs <;>
          by_cases h4 : "internal/config" ∈ dirs <;>
            simp [structureDeltas, requiredDirs, stdCfg, CoreLogicDir, AdapterInboundDir,
              AdapterOutboundDir, pjoinV, habs, h1, h2, h3, h4]
  · rw [Validate_decomp, Validate_decomp, hserT, hserT2, hcoreEq]

/-- Witness for the amended C5 on the concrete tree missing its
business-logic directory. -/
theorem C5_missing_structure_amended_witness :
    ∃ u v w : List String,
      (Validate (stdCfg "m") missingSvcTree).Warnings =
        u ++ "Core logic directory not found: internal/core/services" ::
          (v ++ "Could not check services dependencies: lstat internal/core/services: no such file or directory" :: w) ∧
      (Validate (stdCfg "m") ⟨missingSvcTree.dirs ++ ["internal/core/services"], []⟩).Warnings =
        u ++ (v ++ w) ∧
      (Validate (stdCfg "m") missingSvcTree).Errors =
        (Validate (stdCfg "m") ⟨missingSvcTree.dirs ++ ["internal/core/services"], []⟩).Errors := by
  exact C5_missing_structure_amended "m" missingSvcTree.dirs [] (by decide)
    (by intro fl h; simp at h)

end C5
